import Mathlib

/-!
Verification of the Health_care_system insights pipeline.

The definitions below are a shallow embedding of the frontend code:
* `HealthInsights.tsx` — `generateInsights` (fetch, filter, sort, store
  update), `downloadPDF`, and the `DYNAMIC_COLORS` palette with its
  per-index color assignment for chart series;
* the zustand store `useHealthInsightsStore` — the session state record
  `data / loading / error / hasLoaded` and its initial values;
* the legacy `HealthInsightsCard` — the fixed two-`Area` chart.

JavaScript particulars that matter here and are modelled explicitly:
* `m[key] != null` is true iff the field is present and neither `null`
  nor `undefined` (`JsonVal` plus `Option` distinguish the three cases);
* `x || y` treats the empty string as falsy (`jsOr`);
* `Array.prototype.sort` is stable and the comparator
  `(a, b) => new Date(a.date).getTime() - new Date(b.date).getTime()`
  orders by the parsed date timestamp; the parse `new Date(s).getTime()`
  is an external pure function, taken as a parameter `dv`.
-/

namespace HealthCare

/-- A JSON field value as it appears in a `MetricData` record:
a number, a string, or an explicit `null`. -/
inductive JsonVal where
  | num (n : Int)
  | str (s : String)
  | null
deriving DecidableEq, Repr

/-- `v != null` on a field lookup result: `none` is an absent field
(JS `undefined`), `some .null` an explicit null; both compare loosely
equal to `null`, everything else does not. -/
def jsDefined : Option JsonVal → Bool
  | none => false
  | some .null => false
  | some (.num _) => true
  | some (.str _) => true

/-- A `MetricData` record: a `date` string plus an open set of named
fields (association list, first binding wins as in a JS object). -/
structure MetricRecord where
  date : String
  fields : List (String × JsonVal)
deriving DecidableEq, Repr

/-- `m[key]` on a metric record (the `date` field is kept separately,
as the code only ever reads it through `m.date`). -/
def MetricRecord.getField (m : MetricRecord) (k : String) : Option JsonVal :=
  m.fields.lookup k

/-- The `HealthProfile` shape of the store. -/
structure HealthProfile where
  weight : Option String
  height : Option String
  age : Option String
  blood_group : Option String
  allergies : Option (List String)
deriving DecidableEq, Repr

/-- The `HealthData` payload shape of the store: `available_metrics`
is optional (`undefined` in legacy payloads). -/
structure HealthData where
  summary : String
  profile : Option HealthProfile
  available_metrics : Option (List String)
  metrics : List MetricRecord
  tips : List String
deriving DecidableEq, Repr

/-- The filter predicate of `generateInsights`:
`if (!available_metrics || available_metrics.length === 0) return true;
return available_metrics.some((key) => m[key] != null);`. -/
def keepRecord (am : Option (List String)) (m : MetricRecord) : Bool :=
  match am with
  | none => true
  | some ks =>
      if ks.length = 0 then true
      else ks.any fun k => jsDefined (m.getField k)

/-- The comparator `(a, b) => new Date(a.date).getTime() - new Date(b.date).getTime()`
under a stable sort, with `dv` standing for `s => new Date(s).getTime()`. -/
def dateLE (dv : String → Int) (a b : MetricRecord) : Bool :=
  dv a.date ≤ dv b.date

/-- `Array.prototype.sort` with the date comparator: a stable sort by
ascending parsed date. -/
def sortByDate (dv : String → Int) (l : List MetricRecord) : List MetricRecord :=
  l.mergeSort (dateLE dv)

/-- The series normalisation of `generateInsights` (lines 80–83):
`result.data.metrics.filter(...).sort(...)`. -/
def normalize (dv : String → Int) (raw : HealthData) : List MetricRecord :=
  sortByDate dv (raw.metrics.filter (keepRecord raw.available_metrics))

/-- The zustand store state of `useHealthInsightsStore`. -/
structure StoreState where
  data : Option HealthData
  loading : Bool
  error : Option String
  hasLoaded : Bool
deriving DecidableEq, Repr

/-- Initial values of the store:
`data: null, loading: false, error: null, hasLoaded: false`. -/
def initialStore : StoreState :=
  { data := none, loading := false, error := none, hasLoaded := false }

/-- The observable outcome of the `fetch` on `/analyze_health/:id`:
a non-ok transport response, an ok response whose payload has
`success: false` (with an optional `detail` string), or an ok
response with `success: true` and a data payload. -/
inductive FetchOutcome where
  | transportError
  | appFailure (detail : Option String)
  | appSuccess (d : HealthData)
deriving DecidableEq, Repr

/-- JS `x || y` on an optional string: `undefined`/`null` and the
empty string are falsy. -/
def jsOr (x : Option String) (y : String) : String :=
  match x with
  | none => y
  | some s => if s = "" then y else s

/-- Whether an outcome takes the `catch` path of `generateInsights`. -/
def FetchOutcome.isFailure : FetchOutcome → Bool
  | .transportError => true
  | .appFailure _ => true
  | .appSuccess _ => false

/-- The `Error.message` thrown on each failure path:
`new Error("Failed to fetch health insights")` for a non-ok response,
`new Error(result.detail || "Unknown error")` for `success: false`. -/
def thrownMessage : FetchOutcome → Option String
  | .transportError => some "Failed to fetch health insights"
  | .appFailure detail => some (jsOr detail "Unknown error")
  | .appSuccess _ => none

/-- One complete run of `generateInsights` (lines 68–93): the early
return when no `patientId` is resolved, then `setLoading(true)`,
`setError(null)`, the fetch with outcome `o`, the success path
(`setData` with normalised metrics, `setHasLoaded(true)`) or the
catch path (`setError(err.message || "Could not load health insights.")`),
and finally `setLoading(false)`. -/
def generateInsights (dv : String → Int) (patientId : Option String)
    (o : FetchOutcome) (s : StoreState) : StoreState :=
  match patientId with
  | none => s
  | some _ =>
    let s1 : StoreState := { s with loading := true, error := none }
    match o with
    | .appSuccess d =>
        let s2 : StoreState :=
          { s1 with data := some { d with metrics := normalize dv d },
                    hasLoaded := true }
        { s2 with loading := false }
    | .transportError =>
        let s2 : StoreState :=
          { s1 with error := some (jsOr (thrownMessage .transportError)
                                        "Could not load health insights.") }
        { s2 with loading := false }
    | .appFailure detail =>
        let s2 : StoreState :=
          { s1 with error := some (jsOr (thrownMessage (.appFailure detail))
                                        "Could not load health insights.") }
        { s2 with loading := false }

/-- The fixed chart palette `DYNAMIC_COLORS` of `HealthInsights.tsx`. -/
def DYNAMIC_COLORS : List String :=
  ["#ef4444", "#3b82f6", "#10b981", "#f59e0b", "#8b5cf6", "#ec4899", "#14b8a6"]

/-- `DYNAMIC_COLORS[idx % DYNAMIC_COLORS.length]`. -/
def colorFor (idx : Nat) : String :=
  DYNAMIC_COLORS.getD (idx % DYNAMIC_COLORS.length) ""

/-- The drawing instructions of one `<Area>` element. -/
structure SeriesSpec where
  key : String
  name : String
  stroke : String
  fillGradient : String
  connectNulls : Bool
deriving DecidableEq, Repr

/-- The dynamic chart projection of `HealthInsights.tsx` (lines
343–359): one `<Area>` per entry of `keys`, with
`stroke = DYNAMIC_COLORS[idx % DYNAMIC_COLORS.length]`,
`fill = url(#color<idx>)` and `connectNulls={true}`. The rendered
series depend only on the key list; the series data itself is passed
separately to the enclosing `<AreaChart>`. -/
def project (_series : List MetricRecord) (keys : List String) : List SeriesSpec :=
  keys.enum.map fun p =>
    { key := p.2, name := p.2, stroke := colorFor p.1,
      fillGradient := "url(#color" ++ toString p.1 ++ ")", connectNulls := true }

/-- The color the dynamic chart assigns to metric key `k` when the
legend/series list is `keys`: the palette entry at the index of the key. -/
def colorOf (keys : List String) (k : String) : String :=
  colorFor (keys.indexOf k)

/-- The fixed two-`Area` chart of the legacy `HealthInsightsCard`
(part_001, lines 169–188): always `systolic_bp` and `heart_rate`,
with hard-coded colors and no `connectNulls` (recharts default
`false`), whatever the data holds. -/
def legacyProjection (_series : List MetricRecord) : List SeriesSpec :=
  [ { key := "systolic_bp", name := "Systolic BP", stroke := "#ef4444",
      fillGradient := "url(#colorSys)", connectNulls := false },
    { key := "heart_rate", name := "Heart Rate", stroke := "#3b82f6",
      fillGradient := "url(#colorHr)", connectNulls := false } ]

/-- The view-local state touched by `downloadPDF`, together with the
session store. `refPresent` models `reportRef.current` being non-null. -/
structure ComponentState where
  store : StoreState
  isDownloading : Bool
  refPresent : Bool
deriving DecidableEq, Repr

/-- The outcome of the `html2canvas` capture / jsPDF assembly:
either a raster of the given pixel dimensions, or a thrown error. -/
inductive CaptureOutcome where
  | ok (width height : Nat)
  | failure
deriving DecidableEq, Repr

/-- What `downloadPDF` is observed to do besides mutating state. -/
inductive ExportEffect where
  | none
  | saved (filename : String)
  | alerted (message : String)
deriving DecidableEq, Repr

/-- One complete run of `downloadPDF` (lines 95–113): early return when
the report region is not mounted; otherwise `setIsDownloading(true)`,
capture and single-page A4 assembly, `pdf.save` with the
date-stamped name on success, `alert` on any caught failure, and
`setIsDownloading(false)` in the `finally` block. `today` stands for
`new Date().toISOString().split('T')[0]`. -/
def downloadPDF (today : String) (cap : CaptureOutcome)
    (c : ComponentState) : ComponentState × ExportEffect :=
  if c.refPresent = false then (c, .none)
  else
    let c1 : ComponentState := { c with isDownloading := true }
    match cap with
    | .ok _ _ =>
        ({ c1 with isDownloading := false },
         .saved ("Health_Insights_Report_" ++ today ++ ".pdf"))
    | .failure =>
        ({ c1 with isDownloading := false },
         .alerted "Failed to generate PDF report.")

/-! Concrete instances used by the witnesses: a date-value function and
the worked example of the spec (§8). -/

/-- A concrete stand-in for `s => new Date(s).getTime()` on the dates
of the worked example. -/
def dvEx (s : String) : Int :=
  if s = "2024-01-01" then 0 else if s = "2024-02-01" then 1 else 99

/-- The worked example payload of the spec:
`metrics=[{date:"2024-02-01",hr:70},{date:"2024-01-01",hr:null},{date:"2024-01-01",hr:72}]`,
`availableMetrics=["hr"]`. -/
def rawEx : HealthData :=
  { summary := "", profile := none, available_metrics := some ["hr"],
    metrics :=
      [ { date := "2024-02-01", fields := [("hr", .num 70)] },
        { date := "2024-01-01", fields := [("hr", .null)] },
        { date := "2024-01-01", fields := [("hr", .num 72)] } ],
    tips := [] }

/-! Helper lemmas about the date comparator and `normalize`. -/

theorem dateLE_trans (dv : String → Int) :
    ∀ a b c : MetricRecord, dateLE dv a b → dateLE dv b c → dateLE dv a c := by
  intro a b c hab hbc
  simp only [dateLE, decide_eq_true_eq] at *
  omega

theorem dateLE_total (dv : String → Int) :
    ∀ a b : MetricRecord, dateLE dv a b || dateLE dv b a := by
  intro a b
  simp only [dateLE, Bool.or_eq_true, decide_eq_true_eq]
  omega

theorem mem_normalize_iff (dv : String → Int) (raw : HealthData) (m : MetricRecord) :
    m ∈ normalize dv raw ↔
      m ∈ raw.metrics ∧ keepRecord raw.available_metrics m = true := by
  simp [normalize, sortByDate, List.mem_mergeSort, List.mem_filter]

theorem normalize_pairwise (dv : String → Int) (raw : HealthData) :
    (normalize dv raw).Pairwise fun a b => dateLE dv a b = true :=
  List.sorted_mergeSort (dateLE_trans dv) (dateLE_total dv) _

theorem normalize_sorted (dv : String → Int) (raw : HealthData) :
    (normalize dv raw).Pairwise fun a b => dv a.date ≤ dv b.date :=
  (normalize_pairwise dv raw).imp fun h => by
    simpa only [dateLE, decide_eq_true_eq] using h

theorem normalize_perm_filter (dv : String → Int) (raw : HealthData) :
    (normalize dv raw).Perm
      (raw.metrics.filter (keepRecord raw.available_metrics)) :=
  List.mergeSort_perm _ _

/-- Stability of the normalisation: restricted to any one parsed-date
value, the output lists exactly the retained input records in their
original relative order. -/
theorem normalize_filter_date (dv : String → Int) (raw : HealthData) (t : Int) :
    (normalize dv raw).filter (fun m => dv m.date == t)
      = (raw.metrics.filter (keepRecord raw.available_metrics)).filter
          (fun m => dv m.date == t) := by
  set F := raw.metrics.filter (keepRecord raw.available_metrics) with hF
  set c : MetricRecord → Bool := fun m => dv m.date == t with hc
  have hsub : List.Sublist (F.filter c) (normalize dv raw) := by
    apply List.sublist_mergeSort (dateLE_trans dv) (dateLE_total dv)
    · apply List.pairwise_of_forall_mem_list
      intro a ha b hb
      have h1 : dv a.date = t := by
        simpa [hc] using (List.mem_filter.1 ha).2
      have h2 : dv b.date = t := by
        simpa [hc] using (List.mem_filter.1 hb).2
      simp [dateLE, h1, h2]
    · exact List.filter_sublist F
  have hsub2 : List.Sublist (F.filter c) ((normalize dv raw).filter c) := by
    have h := hsub.filter c
    simpa [List.filter_filter] using h
  have hperm : ((normalize dv raw).filter c).Perm (F.filter c) :=
    (List.mergeSort_perm F (dateLE dv)).filter c
  exact (hsub2.eq_of_length hperm.length_eq.symm).symm

theorem keepRecord_of_ne_nil (ks : List String) (hne : ks ≠ []) (m : MetricRecord) :
    keepRecord (some ks) m = ks.any fun k => jsDefined (m.getField k) := by
  simp [keepRecord, List.length_eq_zero, hne]

/-- C1: with `availableMetrics` present and non-empty, `normalize dv raw` is
exactly the records of `raw.metrics` with at least one non-null value among
the `availableMetrics` keys, each passed through verbatim (the output is a
permutation of the filtered input — records are selected, never altered),
sorted by parsed date ascending, with records sharing a parsed date kept in
their original relative order. -/
theorem normalize_spec_nonempty_keys (dv : String → Int) (raw : HealthData)
    (ks : List String) (ham : raw.available_metrics = some ks) (hne : ks ≠ []) :
    (normalize dv raw).Perm
        (raw.metrics.filter fun m => ks.any fun k => jsDefined (m.getField k))
    ∧ (∀ m ∈ normalize dv raw, (ks.any fun k => jsDefined (m.getField k)) = true)
    ∧ (normalize dv raw).Pairwise (fun a b => dv a.date ≤ dv b.date)
    ∧ (∀ t : Int, (normalize dv raw).filter (fun m => dv m.date == t)
        = raw.metrics.filter fun m =>
            (ks.any fun k => jsDefined (m.getField k)) && (dv m.date == t)) := by
  have hkeep : ∀ m, keepRecord raw.available_metrics m
      = ks.any fun k => jsDefined (m.getField k) := by
    intro m
    rw [ham, keepRecord_of_ne_nil ks hne]
  refine ⟨?_, ?_, normalize_sorted dv raw, ?_⟩
  · have := normalize_perm_filter dv raw
    rwa [List.filter_congr fun m _ => hkeep m] at this
  · intro m hm
    have h := ((mem_normalize_iff dv raw m).1 hm).2
    rwa [hkeep m] at h
  · intro t
    rw [normalize_filter_date dv raw t, List.filter_filter]
    exact List.filter_congr fun m _ => by rw [hkeep m, Bool.and_comm]

/-- Witness for C1 at the worked example of the spec. -/
theorem normalize_spec_nonempty_keys_witness :
    rawEx.available_metrics = some ["hr"] ∧ (["hr"] : List String) ≠ []
    ∧ ((normalize dvEx rawEx).Perm
          (rawEx.metrics.filter fun m => ["hr"].any fun k => jsDefined (m.getField k))
        ∧ (∀ m ∈ normalize dvEx rawEx,
            (["hr"].any fun k => jsDefined (m.getField k)) = true)
        ∧ (normalize dvEx rawEx).Pairwise (fun a b => dvEx a.date ≤ dvEx b.date)
        ∧ (∀ t : Int, (normalize dvEx rawEx).filter (fun m => dvEx m.date == t)
            = rawEx.metrics.filter fun m =>
                (["hr"].any fun k => jsDefined (m.getField k)) && (dvEx m.date == t))) :=
  ⟨rfl, by decide, normalize_spec_nonempty_keys dvEx rawEx ["hr"] rfl (by decide)⟩

/-- C2: normalisation is idempotent — running `normalize` on a payload whose
metrics are the output of a previous `normalize` (with the same
`availableMetrics`) returns that output unchanged: nothing is dropped or
reordered on the second pass. -/
theorem normalize_idempotent (dv : String → Int) (raw : HealthData) :
    normalize dv { raw with metrics := normalize dv raw } = normalize dv raw := by
  have hfilter : (normalize dv raw).filter (keepRecord raw.available_metrics)
      = normalize dv raw :=
    List.filter_eq_self.2 fun m hm => ((mem_normalize_iff dv raw m).1 hm).2
  show sortByDate dv
      ((normalize dv raw).filter (keepRecord raw.available_metrics))
    = normalize dv raw
  rw [hfilter]
  exact List.mergeSort_of_sorted (normalize_pairwise dv raw)

/-- A legacy payload (no `available_metrics`) containing a record whose
only metric value is an explicit null. -/
def rawLeg : HealthData :=
  { summary := "", profile := none, available_metrics := none,
    metrics :=
      [ { date := "2024-02-01", fields := [("hr", .num 70)] },
        { date := "2024-01-01", fields := [("hr", .null)] } ],
    tips := [] }

/-- C3: with `availableMetrics` absent or empty, `normalize` keeps every
record of `raw.metrics` unconditionally — the output is a permutation of the
input (so even all-null records survive) — and only sorts by parsed date
ascending. -/
theorem normalize_legacy_keeps_all (dv : String → Int) (raw : HealthData)
    (h : raw.available_metrics = none ∨ raw.available_metrics = some []) :
    (normalize dv raw).Perm raw.metrics
    ∧ (∀ m ∈ raw.metrics, m ∈ normalize dv raw)
    ∧ (normalize dv raw).Pairwise (fun a b => dv a.date ≤ dv b.date) := by
  have hkeep : ∀ m, keepRecord raw.available_metrics m = true := by
    intro m
    rcases h with h | h <;> simp [h, keepRecord]
  have hfilter : raw.metrics.filter (keepRecord raw.available_metrics)
      = raw.metrics :=
    List.filter_eq_self.2 fun m _ => hkeep m
  have hperm : (normalize dv raw).Perm raw.metrics := by
    have h2 := normalize_perm_filter dv raw
    rwa [hfilter] at h2
  exact ⟨hperm, fun m hm => hperm.mem_iff.2 hm, normalize_sorted dv raw⟩

/-- Witness for C3 on a legacy payload with an all-null record. -/
theorem normalize_legacy_keeps_all_witness :
    (rawLeg.available_metrics = none ∨ rawLeg.available_metrics = some [])
    ∧ ((normalize dvEx rawLeg).Perm rawLeg.metrics
        ∧ (∀ m ∈ rawLeg.metrics, m ∈ normalize dvEx rawLeg)
        ∧ (normalize dvEx rawLeg).Pairwise (fun a b => dvEx a.date ≤ dvEx b.date)) :=
  ⟨Or.inl rfl, normalize_legacy_keeps_all dvEx rawLeg (Or.inl rfl)⟩

/-- C4: `hasLoadedOnce` is false after an error transition reached directly
via idle → loading → error (starting from the initial store state, a failed
first fetch leaves `hasLoaded = false`), and true after every successful
fetch, from any prior state — whether the normalised series is non-empty or
empty. -/
theorem hasLoaded_transitions (dv : String → Int) (pid : String)
    (o : FetchOutcome) (s : StoreState) :
    (o.isFailure = true →
      (generateInsights dv (some pid) o initialStore).hasLoaded = false)
    ∧ (∀ d, o = .appSuccess d →
        (generateInsights dv (some pid) o s).hasLoaded = true) := by
  constructor
  · intro h
    cases o <;> simp_all [generateInsights, FetchOutcome.isFailure, initialStore]
  · rintro d rfl
    simp [generateInsights]

/-- Witness for C4: a failed first fetch does not set `hasLoaded`; a
successful fetch does, also when its metric list is empty. -/
theorem hasLoaded_transitions_witness :
    (FetchOutcome.transportError.isFailure = true
      ∧ (generateInsights dvEx (some "p") .transportError initialStore).hasLoaded
          = false)
    ∧ (generateInsights dvEx (some "p") (.appSuccess rawEx) initialStore).hasLoaded
        = true
    ∧ (generateInsights dvEx (some "p")
        (.appSuccess { rawEx with metrics := [] }) initialStore).hasLoaded = true :=
  ⟨⟨rfl, (hasLoaded_transitions dvEx "p" .transportError initialStore).1 rfl⟩,
   (hasLoaded_transitions dvEx "p" (.appSuccess rawEx) initialStore).2 rawEx rfl,
   (hasLoaded_transitions dvEx "p" (.appSuccess { rawEx with metrics := [] })
      initialStore).2 _ rfl⟩

/-- C5 (amended): when the endpoint reports `success=false` with a
*non-empty* detail text `x`, the stored session error becomes exactly `x`. (An
empty detail string is falsy in `result.detail || "Unknown error"`, so it is
replaced by the generic message — see the counterexample.) -/
theorem appFailure_detail_propagates (dv : String → Int) (pid : String)
    (s : StoreState) (x : String) (hx : x ≠ "") :
    (generateInsights dv (some pid) (.appFailure (some x)) s).error = some x := by
  simp [generateInsights, thrownMessage, jsOr, hx]

/-- Witness for the amended C5. -/
theorem appFailure_detail_propagates_witness :
    ("boom" : String) ≠ ""
    ∧ (generateInsights dvEx (some "p") (.appFailure (some "boom"))
        initialStore).error = some "boom" :=
  ⟨by decide, appFailure_detail_propagates dvEx "p" initialStore "boom" (by decide)⟩

/-- C5 counterexample: the claim "for any text X the stored error equals X"
fails at X = "": the empty string is falsy in JS, so the code stores
"Unknown error" instead of the (empty) payload detail text. -/
theorem appFailure_empty_detail_counterexample :
    (generateInsights dvEx (some "p") (.appFailure (some "")) initialStore).error
        = some "Unknown error"
    ∧ (generateInsights dvEx (some "p") (.appFailure (some "")) initialStore).error
        ≠ some "" :=
  ⟨by decide, by decide⟩

/-- A session state holding the result of an earlier successful load. -/
def readyStore : StoreState :=
  { data := some rawEx, loading := false, error := none, hasLoaded := true }

/-- C6: a failing fetch is atomic with respect to previously loaded data —
when the store holds `data = some d` from an earlier load, a failure leaves
`data` equal to `some d` (and `hasLoaded` unchanged); only the error message
and the loading flag change. -/
theorem fetchFailed_preserves_data (dv : String → Int) (pid : String)
    (s : StoreState) (o : FetchOutcome) (hfail : o.isFailure = true)
    (d : HealthData) (hd : s.data = some d) :
    (generateInsights dv (some pid) o s).data = some d
    ∧ (generateInsights dv (some pid) o s).hasLoaded = s.hasLoaded := by
  cases o <;> simp_all [generateInsights, FetchOutcome.isFailure]

/-- Witness for C6: a transport failure over a ready store keeps the data. -/
theorem fetchFailed_preserves_data_witness :
    FetchOutcome.transportError.isFailure = true
    ∧ readyStore.data = some rawEx
    ∧ ((generateInsights dvEx (some "p") .transportError readyStore).data
          = some rawEx
        ∧ (generateInsights dvEx (some "p") .transportError readyStore).hasLoaded
          = readyStore.hasLoaded) :=
  ⟨rfl, rfl,
   fetchFailed_preserves_data dvEx "p" readyStore .transportError rfl rawEx rfl⟩

/-- C10: every completed run of `generateInsights` with a resolved patientId
ends with `loading = false`, whatever the fetch outcome and the prior state —
the `finally` block always clears the flag. -/
theorem loading_cleared_after_settle (dv : String → Int) (pid : String)
    (o : FetchOutcome) (s : StoreState) :
    (generateInsights dv (some pid) o s).loading = false := by
  cases o <;> simp [generateInsights]

/-- Eight distinct metric keys — one more than the palette has colors. -/
def ks8 : List String := ["m0", "m1", "m2", "m3", "m4", "m5", "m6", "m7"]

/-- `ks8` with its first and last keys exchanged: both sit at indices that
the 7-color palette maps to the same color (0 mod 7 = 7 mod 7). -/
def ks8x : List String := ["m7", "m1", "m2", "m3", "m4", "m5", "m6", "m0"]

/-- C7 counterexample: `ks8x` is a non-identity permutation of `ks8`, more
than one distinct palette color is cycled, yet no assigned key color
changes — keys at indices 0 and 7 share `DYNAMIC_COLORS[0]`, so swapping
them is color-invisible. -/
theorem color_permutation_counterexample :
    ks8x.Perm ks8 ∧ ks8x ≠ ks8
    ∧ 2 ≤ ((List.range ks8.length).map colorFor).dedup.length
    ∧ ∀ k ∈ ks8, colorOf ks8x k = colorOf ks8 k := by
  refine ⟨by decide, by decide, by decide, by decide⟩

/-- C7 (amended): the color of the series at index `i` is the palette entry
at `i mod 7`, and the projection is invariant across repeated calls with the
same `keys` (it does not read the series data at all); and when the keys are
pairwise distinct and no more numerous than the palette (so that the cycled
colors are pairwise distinct), every non-identity reordering of `keys`
changes the color assigned to at least one key. -/
theorem color_assignment_spec (series series2 : List MetricRecord)
    (keys ks2 : List String)
    (hnd : keys.Nodup) (hlen : keys.length ≤ DYNAMIC_COLORS.length)
    (hperm : ks2.Perm keys) (hne : ks2 ≠ keys) :
    (project series keys).map SeriesSpec.stroke
        = (List.range keys.length).map colorFor
    ∧ project series keys = project series2 keys
    ∧ ∃ k ∈ keys, colorOf ks2 k ≠ colorOf keys k := by
  refine ⟨?_, rfl, ?_⟩
  · apply List.ext_getElem
    · simp [project]
    · intro i h1 h2
      simp [project, List.getElem_enum]
  · have hlen2 : ks2.length = keys.length := hperm.length_eq
    have hnd2 : ks2.Nodup := hperm.nodup_iff.2 hnd
    have hdn : DYNAMIC_COLORS.Nodup := by decide
    have hdiff : ∃ i, ∃ (h1 : i < ks2.length) (_ : i < keys.length),
        ks2[i] ≠ keys[i] := by
      by_contra hall
      push_neg at hall
      exact hne (List.ext_getElem hlen2 fun i h1 h2 => hall i h1 h2)
    obtain ⟨i, h1, h2, hik⟩ := hdiff
    set k := ks2[i] with hk
    have hmem : k ∈ keys := hperm.mem_iff.1 (List.getElem_mem h1)
    refine ⟨k, hmem, ?_⟩
    have hidx2 : ks2.indexOf k = i := List.indexOf_getElem hnd2 i h1
    have hj : keys.indexOf k < keys.length := List.indexOf_lt_length.2 hmem
    have hji : keys.indexOf k ≠ i := by
      intro he
      have h4 : keys.indexOf keys[i] = i := List.indexOf_getElem hnd i h2
      have h5 : keys.indexOf k = keys.indexOf keys[i] := by rw [he, h4]
      have h6 : k = keys[i] :=
        (List.indexOf_inj hmem (List.getElem_mem h2)).1 h5
      exact hik h6
    have hi7 : i < DYNAMIC_COLORS.length :=
      lt_of_lt_of_le (hlen2 ▸ h1) hlen
    have hj7 : keys.indexOf k < DYNAMIC_COLORS.length :=
      lt_of_lt_of_le hj hlen
    unfold colorOf colorFor
    rw [hidx2, Nat.mod_eq_of_lt hi7, Nat.mod_eq_of_lt hj7,
      List.getD_eq_getElem _ _ hi7, List.getD_eq_getElem _ _ hj7]
    intro he
    exact hji ((hdn.getElem_inj_iff).1 he).symm

/-- Witness for the amended C7: two distinct keys, swapped; the first key
color changes from red to blue. -/
theorem color_assignment_spec_witness :
    (["hr", "bp"] : List String).Nodup
    ∧ (["hr", "bp"] : List String).length ≤ DYNAMIC_COLORS.length
    ∧ (["bp", "hr"] : List String).Perm ["hr", "bp"]
    ∧ (["bp", "hr"] : List String) ≠ ["hr", "bp"]
    ∧ ((project [] ["hr", "bp"]).map SeriesSpec.stroke
          = (List.range (["hr", "bp"] : List String).length).map colorFor
        ∧ project [] ["hr", "bp"] = project [{ date := "2024-01-01", fields := [] }] ["hr", "bp"]
        ∧ ∃ k ∈ (["hr", "bp"] : List String),
            colorOf ["bp", "hr"] k ≠ colorOf ["hr", "bp"] k) :=
  ⟨by decide, by decide, by decide, by decide,
   color_assignment_spec [] [{ date := "2024-01-01", fields := [] }] ["hr", "bp"] ["bp", "hr"]
     (by decide) (by decide) (by decide) (by decide)⟩

/-- C8 counterexample: in the dynamic chart of `HealthInsights.tsx`,
projecting a non-empty normalised series with an empty key list yields zero
series, not the claimed fixed two-series fallback. -/
theorem project_empty_keys_counterexample :
    (project [{ date := "2024-01-01", fields := [("hr", .num 70)] }] []).length = 0
    ∧ (project [{ date := "2024-01-01", fields := [("hr", .num 70)] }] []).length
        ≠ 2 :=
  ⟨rfl, by decide⟩

/-- C8 (amended): with an empty key list the dynamic chart projects zero
series for every normalised series; the fixed two-series projection for the
well-known metric names `systolic_bp` and `heart_rate` is produced by the
separate legacy `HealthInsightsCard`, unconditionally — two series for every
series input, not triggered by an empty key list. -/
theorem project_empty_keys_spec (series series2 : List MetricRecord) :
    project series [] = []
    ∧ (legacyProjection series2).length = 2
    ∧ (legacyProjection series2).map SeriesSpec.key
        = ["systolic_bp", "heart_rate"] :=
  ⟨rfl, rfl, rfl⟩

/-- C9: `downloadPDF` never modifies the session store — `data`, `loading`,
`error` and `hasLoaded` are all unchanged by every run, successful or not —
and a capture/assembly failure is caught at the component boundary and
surfaced as the user-visible alert message, never propagated. -/
theorem downloadPDF_frame (today : String) (cap : CaptureOutcome)
    (c : ComponentState) :
    ((downloadPDF today cap c).1).store = c.store
    ∧ (downloadPDF today .failure { c with refPresent := true }).2
        = .alerted "Failed to generate PDF report." := by
  refine ⟨?_, by simp [downloadPDF]⟩
  by_cases h : c.refPresent = false <;> cases cap <;> simp [downloadPDF, h]

end HealthCare
